import Mathlib

/-!
Verification development for the cineai client repository: a shallow
embedding of the synchronization store (`useProjectStore`), its fetch
actions with their retry and error-handling behaviour, the behavioural
categorizer of `EmotionPerformance.tsx`, and the auto-select logic of
`AIMonitor.tsx`, together with theorems settling the specification
claims about them.
-/

set_option maxHeartbeats 1000000

namespace CineAI

/-! ## JavaScript-flavoured defaulting helpers

The source uses the `||` operator to default absent or falsy fields.
For a numeric field `x || d` yields `d` exactly when `x` is absent or
`0`; for a string field when it is absent or empty; for a boolean field
when it is absent or `false`. -/

def jsOrNum (v : Option ℚ) (d : ℚ) : ℚ :=
  match v with
  | none => d
  | some x => if x = 0 then d else x

def jsOrBool (v : Option Bool) (d : Bool) : Bool :=
  match v with
  | none => d
  | some b => if b then b else d

def jsOrString (v : Option String) (d : String) : String :=
  match v with
  | none => d
  | some x => if x = "" then d else x

/-! ## Data model -/

/-- Issue counts by category, as in the store state and the stats
payload (`issues: { focus, audio, continuity, narrative }`). -/
structure Issues where
  focus : Nat
  audio : Nat
  continuity : Nat
  narrative : Nat
deriving DecidableEq

/-- Modelled from the spec: the `DashboardStats` payload type is
imported from `src/lib/api.ts`, which is not among the surveyed source
files. The spec (section 3) describes it as a snapshot of aggregate
metrics: processing progress percentage, AI confidence health
percentage, issue counts by category, pending-review count, approved
count, total takes, total footage string. The store treats the whole
snapshot opaquely, so only its existence as a value matters here. -/
structure DashboardStats where
  processing_progress : ℚ
  ai_confidence_health : ℚ
  issues : Issues
  pending_review : Nat
  approved : Nat
  total_takes : Nat
  total_footage : String
deriving DecidableEq

/-- The opaque timeline payload (`timeline: unknown | null`). -/
abbrev Timeline := String

/-- The created-resource descriptor returned by `api.media.upload`. -/
abbrev MediaData := String

/-- The binary file handle passed to `uploadMedia`; opaque to the store. -/
abbrev MediaFile := String

/-- The project payload of `api.projects.getCurrent()`: the store reads
`id`, `name`, `description` (optional) and `created_at`. -/
structure Project where
  id : Int
  name : String
  description : Option String
  created_at : String
deriving DecidableEq

/-- Status values used by the per-stage and overall processing status. -/
inductive StageStatus where
  | pending
  | processing
  | completed
  | error
deriving DecidableEq

/-- The per-take `ProcessingStatus` payload from `AIMonitor.tsx`. -/
structure ProcessingStatus where
  status : StageStatus
  progress : ℚ
  stages : List (String × StageStatus)
  logs : List String
deriving DecidableEq

/-- A thrown JavaScript value, as discriminated by the catch blocks:
`some m` is an `Error` whose `message` is `m`; `none` is a non-`Error`
thrown value. -/
abbrev JsError := Option String

/-- The stored message for a caught value:
`err instanceof Error ? err.message : 'Unknown error'`. -/
def jsErrorMessage (e : JsError) : String :=
  match e with
  | some m => m
  | none => "Unknown error"

/-! ## Take metadata (interfaces of `AIMonitor.tsx`) -/

/-- `behavioral_markers` of the audio analysis: the categorizer reads
`hesitation_duration` and `laughter_detected`. -/
structure BehavioralMarkers where
  hesitation_duration : Option ℚ
  laughter_detected : Option Bool
deriving DecidableEq

/-- Vision findings (`cv` key of `ai_metadata`). -/
structure CvMeta where
  duration : ℚ
  objects : List String
  reasoning : String
  video_description : Option String
deriving DecidableEq

/-- Audio findings (`audio` key of `ai_metadata`). -/
structure AudioMeta where
  transcript : String
  reasoning : String
  quality_score : ℚ
  audio_description : Option String
  language : Option String
  confidence : Option ℚ
  source : Option String
  behavioral_markers : Option BehavioralMarkers
deriving DecidableEq

/-- Alignment findings (`nlp` key of `ai_metadata`). -/
structure NlpMeta where
  aligned : Bool
  similarity : ℚ
  reasoning : String
deriving DecidableEq

/-- Numeric score breakdown (`score_breakdown` key of `ai_metadata`). -/
structure ScoreBreakdown where
  acting : ℚ
  timing : ℚ
  technical : ℚ
  script : ℚ
deriving DecidableEq

/-- The nested `ai_metadata` object of a take. A JSON object omits
absent keys, so each key is an `Option`; an absent key corresponds to
`none`. -/
structure AiMetadata where
  cv : Option CvMeta
  audio : Option AudioMeta
  nlp : Option NlpMeta
  score_breakdown : Option ScoreBreakdown
  emotion : Option String
deriving DecidableEq

/-- One analysed clip (`Take` interface). -/
structure Take where
  id : Int
  file_name : String
  number : Int
  duration : Option ℚ
  ai_metadata : Option AiMetadata
  confidence_score : Option ℚ
deriving DecidableEq

/-- The empty object `{}` used as metadata default (`take.ai_metadata || {}`). -/
def emptyAiMetadata : AiMetadata := ⟨none, none, none, none, none⟩

/-- The empty object `{}` used as audio default (`meta.audio || {}`);
the categorizer only ever reads `behavioral_markers` from it. -/
def emptyAudioMeta : AudioMeta := ⟨"", "", 0, none, none, none, none, none⟩

/-- The empty object `{}` used as behavioural-markers default. -/
def emptyBehavioralMarkers : BehavioralMarkers := ⟨none, none⟩

/-! ## Store state (`useProjectStore`) -/

/-- The state held by the zustand store, field for field. Identifiers
are `Int` (TypeScript numbers used as ids), scores and progress values
are `ℚ`, `lastUpdated` is an abstract clock reading. -/
structure StoreState where
  projectId : Option Int
  projectName : String
  description : String
  shootDate : String
  cameras : List String
  totalFootage : String
  processingProgress : ℚ
  aiConfidenceHealth : ℚ
  loading : Bool
  error : Option String
  issues : Issues
  dashboardStats : Option DashboardStats
  lastUpdated : Option Nat
  timeline : Option Timeline
deriving DecidableEq

/-- The initial store state from the `create` call. -/
def initialState : StoreState :=
  { projectId := none
    projectName := "Loading..."
    description := ""
    shootDate := ""
    cameras := []
    totalFootage := "0h 0m 0s"
    processingProgress := 0
    aiConfidenceHealth := 0
    loading := false
    error := none
    issues := ⟨0, 0, 0, 0⟩
    dashboardStats := none
    lastUpdated := none
    timeline := none }

/-- The initial write of every loading-managed fetch action: set
loading to true and error to null. -/
def syncStart (s : StoreState) : StoreState :=
  { s with loading := true, error := none }

/-! ## Action runs and event traces

Each asynchronous action is embedded as a pure function from the
backend outcome (the resolution of the awaited api call, indexed by
attempt number where the action retries) and the pre-state to an
`ActionResult`: the post-state, the promise outcome (`Except.error`
exactly when the action re-raises), and the trace of observable events
in program order: store writes, fetch attempts, and delays. -/

inductive Ev where
  | write (s : StoreState)
  | attempt
  | delay (ms : Nat)
deriving DecidableEq

structure ActionResult (α : Type) where
  state : StoreState
  outcome : Except JsError α
  events : List Ev

/-- Number of fetch attempts in a trace. -/
def attemptCount : List Ev → Nat
  | [] => 0
  | Ev.attempt :: rest => attemptCount rest + 1
  | _ :: rest => attemptCount rest

/-- The delays issued by a trace, in order. -/
def delaysOf : List Ev → List Nat
  | [] => []
  | Ev.delay ms :: rest => ms :: delaysOf rest
  | _ :: rest => delaysOf rest

/-- The store states written by a trace, in order. -/
def writesOf : List Ev → List StoreState
  | [] => []
  | Ev.write s :: rest => s :: writesOf rest
  | _ :: rest => writesOf rest

/-- The current `error` field at the start of each fetch attempt,
threading the writes of the trace from the given initial value. -/
def errorsAtAttempts (cur : Option String) : List Ev → List (Option String)
  | [] => []
  | Ev.write s :: rest => errorsAtAttempts s.error rest
  | Ev.attempt :: rest => cur :: errorsAtAttempts cur rest
  | Ev.delay _ :: rest => errorsAtAttempts cur rest

/-- The current `loading` field at each delay, threading the writes of
the trace from the given initial value. -/
def loadingAtDelays (cur : Bool) : List Ev → List Bool
  | [] => []
  | Ev.write s :: rest => loadingAtDelays s.loading rest
  | Ev.delay _ :: rest => cur :: loadingAtDelays cur rest
  | Ev.attempt :: rest => loadingAtDelays cur rest

/-! ## Store actions -/

/-- `fetchProject`. `fmt` stands for the environment-dependent
`(d : Date) => d.toLocaleDateString()` applied to `created_at`. -/
def fetchProject (fmt : String → String) (res : Except JsError Project)
    (s : StoreState) : ActionResult Unit :=
  let s1 := syncStart s
  match res with
  | Except.ok project =>
      let s2 := { s1 with
        projectId := some project.id
        projectName := project.name
        description := jsOrString project.description ""
        shootDate := fmt project.created_at
        loading := false }
      ⟨s2, Except.ok (), [Ev.write s1, Ev.attempt, Ev.write s2]⟩
  | Except.error e =>
      let s2 := { s1 with error := some (jsErrorMessage e), loading := false }
      ⟨s2, Except.ok (), [Ev.write s1, Ev.attempt, Ev.write s2]⟩

/-- `fetchTimeline`. -/
def fetchTimeline (res : Except JsError Timeline) (s : StoreState) :
    ActionResult Unit :=
  let s1 := syncStart s
  match res with
  | Except.ok tl =>
      let s2 := { s1 with timeline := some tl, loading := false }
      ⟨s2, Except.ok (), [Ev.write s1, Ev.attempt, Ev.write s2]⟩
  | Except.error e =>
      let s2 := { s1 with error := some (jsErrorMessage e), loading := false }
      ⟨s2, Except.ok (), [Ev.write s1, Ev.attempt, Ev.write s2]⟩

/-- `getProcessingStatus(takeId)`: returns the payload on success and
`null` on failure, never writes the store, never re-raises. -/
def getProcessingStatus (takeId : Int) (res : Except JsError ProcessingStatus)
    (s : StoreState) : ActionResult (Option ProcessingStatus) :=
  match takeId, res with
  | _, Except.ok d => ⟨s, Except.ok (some d), [Ev.attempt]⟩
  | _, Except.error _ => ⟨s, Except.ok none, [Ev.attempt]⟩

/-- `setProcessingProgress(progress)`: synchronous setter. -/
def setProcessingProgress (progress : ℚ) (s : StoreState) : ActionResult Unit :=
  let s1 := { s with processingProgress := progress }
  ⟨s1, Except.ok (), [Ev.write s1]⟩

/-- `uploadMedia(file)`: on failure it re-raises after recording the
error, which is visible as an `Except.error` outcome. -/
def uploadMedia (file : MediaFile) (res : Except JsError MediaData)
    (s : StoreState) : ActionResult MediaData :=
  let s1 := syncStart s
  match file, res with
  | _, Except.ok d =>
      let s2 := { s1 with loading := false }
      ⟨s2, Except.ok d, [Ev.write s1, Ev.attempt, Ev.write s2]⟩
  | _, Except.error e =>
      let s2 := { s1 with error := some (jsErrorMessage e), loading := false }
      ⟨s2, Except.error e, [Ev.write s1, Ev.attempt, Ev.write s2]⟩

/-- The fixed user-facing message written after the retries of
`fetchDashboardStats` are exhausted. -/
def dashboardFailMsg : String :=
  "Failed to fetch dashboard statistics. Please refresh the page."

/-- `fetchDashboardStats(retries = 3)`. The backend oracle `b` gives
the outcome of the attempt with the given index (`none` is a failed
fetch); `now` is the clock reading stored into `lastUpdated` on
success; `i` is the index of the current attempt. On failure with
`retries > 0` the action delays 2000 units and recurses with
`retries - 1`; with `retries = 0` it writes the fixed message. The
write setting loading true and error null happens at the top of every
attempt. -/
def fetchDashboardStats (b : Nat → Option DashboardStats) (now : Nat)
    (i : Nat) (retries : Nat) (s : StoreState) : ActionResult Unit :=
  let s1 := syncStart s
  match b i with
  | some stats =>
      let s2 := { s1 with
        dashboardStats := some stats
        lastUpdated := some now
        loading := false }
      ⟨s2, Except.ok (), [Ev.write s1, Ev.attempt, Ev.write s2]⟩
  | none =>
      match retries with
      | r + 1 =>
          let rec1 := fetchDashboardStats b now (i + 1) r s1
          ⟨rec1.state, rec1.outcome,
            Ev.write s1 :: Ev.attempt :: Ev.delay 2000 :: rec1.events⟩
      | 0 =>
          let s2 := { s1 with error := some dashboardFailMsg, loading := false }
          ⟨s2, Except.ok (), [Ev.write s1, Ev.attempt, Ev.write s2]⟩

/-! ## Behavioural categorizer (`categorizedResults` of `EmotionPerformance.tsx`) -/

/-- `behaviors.hesitation_duration || 0` read through
`take.ai_metadata || {}` and the nested object defaults. -/
def pauseOf (t : Take) : ℚ :=
  jsOrNum ((((t.ai_metadata.getD emptyAiMetadata).audio.getD emptyAudioMeta
    ).behavioral_markers.getD emptyBehavioralMarkers).hesitation_duration) 0

/-- `behaviors.laughter_detected || false` with the same defaults. -/
def laughterOf (t : Take) : Bool :=
  jsOrBool ((((t.ai_metadata.getD emptyAiMetadata).audio.getD emptyAudioMeta
    ).behavioral_markers.getD emptyBehavioralMarkers).laughter_detected) false

/-- `meta.emotion || 'neutral'`. -/
def emotionOf (t : Take) : String :=
  jsOrString ((t.ai_metadata.getD emptyAiMetadata).emotion) "neutral"

/-- The five category buckets, in declaration order of the source map:
Hesitation and Pauses, Laughter and Humor, Emotional Peaks, Analytical
and Technical, Standard Dialogue. -/
structure CategorizedTakes where
  hesitationPauses : List Take
  laughterHumor : List Take
  emotionalPeaks : List Take
  analyticalTechnical : List Take
  standardDialogue : List Take
deriving DecidableEq

def emptyCategories : CategorizedTakes := ⟨[], [], [], [], []⟩

/-- The body of the `takes.forEach` loop: push the take onto each
bucket whose condition holds, in source order. The last condition
additionally excludes the analytical emotion from Standard Dialogue
inside its branch, exactly as the nested `if` in the source does. -/
def categorizeTake (cats : CategorizedTakes) (take : Take) : CategorizedTakes :=
  let pause := pauseOf take
  let laughter := laughterOf take
  let emotion := emotionOf take
  let c1 := if pause > 1 then
      { cats with hesitationPauses := cats.hesitationPauses ++ [take] } else cats
  let c2 := if laughter then
      { c1 with laughterHumor := c1.laughterHumor ++ [take] } else c1
  let c3 := if emotion = "analytical" then
      { c2 with analyticalTechnical := c2.analyticalTechnical ++ [take] } else c2
  let c4 := if emotion ≠ "neutral" ∧ emotion ≠ "unknown" ∧ emotion ≠ "analytical" then
      { c3 with emotionalPeaks := c3.emotionalPeaks ++ [take] } else c3
  if ¬ laughter ∧ pause ≤ 1 ∧
      (emotion = "neutral" ∨ emotion = "unknown" ∨ emotion = "analytical") then
    (if emotion ≠ "analytical" then
      { c4 with standardDialogue := c4.standardDialogue ++ [take] } else c4)
  else c4

/-- `categorizedResults`: fold the loop body over the takes, starting
from the empty buckets. -/
def categorizedResults (takes : List Take) : CategorizedTakes :=
  takes.foldl categorizeTake emptyCategories

/-! Specification-side category predicates, stated per take exactly as
the claims phrase them (over the defaulted field readings). -/

def inHesitation (t : Take) : Bool := decide (pauseOf t > 1)

def inLaughter (t : Take) : Bool := laughterOf t

def inAnalytical (t : Take) : Bool := decide (emotionOf t = "analytical")

def inEmotional (t : Take) : Bool :=
  decide (emotionOf t ≠ "neutral" ∧ emotionOf t ≠ "unknown" ∧
    emotionOf t ≠ "analytical")

def inStandard (t : Take) : Bool :=
  decide (laughterOf t = false ∧ pauseOf t ≤ 1 ∧
    (emotionOf t = "neutral" ∨ emotionOf t = "unknown"))

/-! ## Auto-select logic (`fetchTakes` of `AIMonitor.tsx`) -/

/-- `t.ai_metadata && Object.keys(t.ai_metadata).length > 0`: the
metadata object exists and carries at least one key. A JSON object
received from the backend has exactly the keys whose `Option` fields
are `some` here. -/
def hasNonEmptyMeta (t : Take) : Bool :=
  match t.ai_metadata with
  | none => false
  | some m =>
      m.cv.isSome || m.audio.isSome || m.nlp.isSome ||
        m.score_breakdown.isSome || m.emotion.isSome

/-- The selection update performed by `fetchTakes` once the take list
arrives: `urlTakeId` is the parsed `takeId` query parameter (`none`
when absent or empty), `selectedTake` the current selection, `data`
the server-returned list. Returns the new selection. -/
def autoSelect (urlTakeId : Option Int) (selectedTake : Option Take)
    (data : List Take) : Option Take :=
  if data.length > 0 then
    match selectedTake with
    | none =>
        let fromUrl := match urlTakeId with
          | some uid => data.find? (fun t => t.id == uid)
          | none => none
        match fromUrl with
        | some t => some t
        | none =>
            match data.find? hasNonEmptyMeta with
            | some t => some t
            | none => data.head?
    | some sel =>
        match data.find? (fun t => t.id == sel.id) with
        | some updated => some updated
        | none => some sel
  else selectedTake

/-! ## Derived notions used by the theorems -/

/-- All store fields other than the sync flags `loading` and `error`
agree between the two states. -/
def domainUnchanged (s s' : StoreState) : Prop :=
  s'.projectId = s.projectId ∧ s'.projectName = s.projectName ∧
  s'.description = s.description ∧ s'.shootDate = s.shootDate ∧
  s'.cameras = s.cameras ∧ s'.totalFootage = s.totalFootage ∧
  s'.processingProgress = s.processingProgress ∧
  s'.aiConfidenceHealth = s.aiConfidenceHealth ∧
  s'.issues = s.issues ∧ s'.dashboardStats = s.dashboardStats ∧
  s'.lastUpdated = s.lastUpdated ∧ s'.timeline = s.timeline

/-- Whether an `Except` outcome is a normal resolution (no re-raise). -/
def exceptIsOk {ε α : Type} : Except ε α → Bool
  | Except.ok _ => true
  | Except.error _ => false

/-- The event trace of a `fetchDashboardStats` run against an
always-failing backend, with `s1` the per-attempt sync write and
`fin` the terminal write: one write-attempt-delay group per remaining
retry, then the final write-attempt-write group. -/
def failTrace (s1 fin : StoreState) : Nat → List Ev
  | 0 => [Ev.write s1, Ev.attempt, Ev.write fin]
  | n + 1 => Ev.write s1 :: Ev.attempt :: Ev.delay 2000 :: failTrace s1 fin n

/-- Every fetch attempt of the trace starts with the `error` field
cleared to null. -/
def errorClearedAtAttempts (s : StoreState) (evs : List Ev) : Prop :=
  errorsAtAttempts s.error evs = List.replicate (attemptCount evs) none

/-- Every store write of the trace except the last leaves `error`
null: the error field is set at most by the terminal write. -/
def errorOnlyAtEnd (evs : List Ev) : Prop :=
  ∀ w ∈ (writesOf evs).dropLast, w.error = none

/-! Concrete example values used by witness theorems. -/

def exStats : DashboardStats :=
  { processing_progress := 50
    ai_confidence_health := 90
    issues := ⟨1, 0, 2, 0⟩
    pending_review := 3
    approved := 4
    total_takes := 7
    total_footage := "1h 2m 3s" }

def exMetaHappy : AiMetadata :=
  { emptyAiMetadata with emotion := some "happy" }

/-- A take with no metadata at all. -/
def exTakeA : Take :=
  { id := 1, file_name := "a.mp4", number := 1, duration := none
    ai_metadata := none, confidence_score := none }

/-- A take with non-empty metadata. -/
def exTakeB : Take :=
  { id := 2, file_name := "b.mp4", number := 2, duration := none
    ai_metadata := some exMetaHappy, confidence_score := none }

/-- Another take with non-empty metadata. -/
def exTakeC : Take :=
  { id := 3, file_name := "c.mp4", number := 3, duration := none
    ai_metadata := some exMetaHappy, confidence_score := none }

def exTakes : List Take := [exTakeA, exTakeB, exTakeC]

/-- A store state carrying a stale error, as left by a previous failed
fetch. -/
def exErrState : StoreState := { initialState with error := some "stale failure" }

/-- A concrete project payload. -/
def exProject : Project :=
  { id := 9, name := "Demo", description := none, created_at := "2025-01-01" }

/-- A concrete stand-in for the locale date formatter. -/
def idFmt : String → String := fun x => x

/-! ## Helper lemmas: the retry run of `fetchDashboardStats` -/

theorem syncStart_syncStart (s : StoreState) :
    syncStart (syncStart s) = syncStart s := rfl

/-- Closed form of a `fetchDashboardStats` run against an
always-failing backend. -/
theorem fds_fail_eq (now n : Nat) : ∀ (i : Nat) (s : StoreState),
    fetchDashboardStats (fun _ => none) now i n s =
      ⟨{ s with error := some dashboardFailMsg, loading := false }, Except.ok (),
        failTrace (syncStart s)
          { s with error := some dashboardFailMsg, loading := false } n⟩ := by
  induction n with
  | zero => intro i s; rfl
  | succ n ih =>
      intro i s
      simp only [fetchDashboardStats]
      rw [ih (i + 1) (syncStart s)]
      rfl

theorem attemptCount_failTrace (s1 fin : StoreState) (n : Nat) :
    attemptCount (failTrace s1 fin n) = n + 1 := by
  induction n with
  | zero => rfl
  | succ n ih => simp [failTrace, attemptCount, ih]

theorem delaysOf_failTrace (s1 fin : StoreState) (n : Nat) :
    delaysOf (failTrace s1 fin n) = List.replicate n 2000 := by
  induction n with
  | zero => rfl
  | succ n ih => simp [failTrace, delaysOf, ih, List.replicate_succ]

theorem writesOf_failTrace (s1 fin : StoreState) (n : Nat) :
    writesOf (failTrace s1 fin n) = List.replicate (n + 1) s1 ++ [fin] := by
  induction n with
  | zero => rfl
  | succ n ih => simp [failTrace, writesOf, ih, List.replicate_succ]

theorem errorsAtAttempts_failTrace (cur : Option String) (s1 fin : StoreState)
    (n : Nat) : errorsAtAttempts cur (failTrace s1 fin n) =
      List.replicate (n + 1) s1.error := by
  induction n generalizing cur with
  | zero => rfl
  | succ n ih => simp [failTrace, errorsAtAttempts, ih, List.replicate_succ]

theorem loadingAtDelays_failTrace (cur : Bool) (s1 fin : StoreState) (n : Nat) :
    loadingAtDelays cur (failTrace s1 fin n) = List.replicate n s1.loading := by
  induction n generalizing cur with
  | zero => rfl
  | succ n ih => simp [failTrace, loadingAtDelays, ih, List.replicate_succ]

/-- Claim C1: with `retries = N` against an always-failing backend,
`fetchDashboardStats` performs exactly `N + 1` fetch attempts with a
2000-unit delay before each retry (`N` delays in total), the `loading`
flag is true at every delay and at every store write except the
terminal one, the `error` field is null at the start of every attempt,
and only the terminal write sets `error` to the fixed message and
`loading` to false. -/
theorem C1_retry_exhaustion (n now : Nat) (s : StoreState) :
    attemptCount (fetchDashboardStats (fun _ => none) now 0 n s).events = n + 1 ∧
    delaysOf (fetchDashboardStats (fun _ => none) now 0 n s).events =
      List.replicate n 2000 ∧
    loadingAtDelays s.loading (fetchDashboardStats (fun _ => none) now 0 n s).events =
      List.replicate n true ∧
    errorsAtAttempts s.error (fetchDashboardStats (fun _ => none) now 0 n s).events =
      List.replicate (n + 1) none ∧
    (fetchDashboardStats (fun _ => none) now 0 n s).state.error =
      some "Failed to fetch dashboard statistics. Please refresh the page." ∧
    (fetchDashboardStats (fun _ => none) now 0 n s).state.loading = false ∧
    writesOf (fetchDashboardStats (fun _ => none) now 0 n s).events =
      List.replicate (n + 1) (syncStart s) ++
        [(fetchDashboardStats (fun _ => none) now 0 n s).state] := by
  rw [fds_fail_eq]
  exact ⟨attemptCount_failTrace _ _ _, delaysOf_failTrace _ _ _,
    loadingAtDelays_failTrace _ _ _ _, errorsAtAttempts_failTrace _ _ _ _,
    rfl, rfl, writesOf_failTrace _ _ _⟩

/-- Claim C2: with `retries = 3` against a backend that fails the
first two attempts and succeeds on the third, `fetchDashboardStats`
performs exactly 3 attempts and terminates with the stats snapshot
stored, `lastUpdated` set to the current clock reading, `loading`
false and `error` null. -/
theorem C2_fail_twice_then_success (stats : DashboardStats) (now : Nat)
    (s : StoreState) :
    attemptCount (fetchDashboardStats (fun i => if i < 2 then none else some stats)
      now 0 3 s).events = 3 ∧
    (fetchDashboardStats (fun i => if i < 2 then none else some stats)
      now 0 3 s).state.dashboardStats = some stats ∧
    (fetchDashboardStats (fun i => if i < 2 then none else some stats)
      now 0 3 s).state.lastUpdated = some now ∧
    (fetchDashboardStats (fun i => if i < 2 then none else some stats)
      now 0 3 s).state.loading = false ∧
    (fetchDashboardStats (fun i => if i < 2 then none else some stats)
      now 0 3 s).state.error = none := by
  norm_num [fetchDashboardStats, attemptCount, syncStart]

/-! ## Helper lemmas: the categorizer -/

theorem categorizeTake_hesitation (cats : CategorizedTakes) (t : Take) :
    (categorizeTake cats t).hesitationPauses =
      cats.hesitationPauses ++ (if inHesitation t then [t] else []) := by
  simp only [categorizeTake, inHesitation]
  split_ifs <;> simp_all
  all_goals linarith

theorem categorizeTake_laughter (cats : CategorizedTakes) (t : Take) :
    (categorizeTake cats t).laughterHumor =
      cats.laughterHumor ++ (if inLaughter t then [t] else []) := by
  simp only [categorizeTake, inLaughter]
  split_ifs <;> simp_all

theorem categorizeTake_analytical (cats : CategorizedTakes) (t : Take) :
    (categorizeTake cats t).analyticalTechnical =
      cats.analyticalTechnical ++ (if inAnalytical t then [t] else []) := by
  simp only [categorizeTake, inAnalytical]
  split_ifs <;> simp_all

theorem categorizeTake_emotional (cats : CategorizedTakes) (t : Take) :
    (categorizeTake cats t).emotionalPeaks =
      cats.emotionalPeaks ++ (if inEmotional t then [t] else []) := by
  simp only [categorizeTake, inEmotional]
  split_ifs <;> simp_all

theorem categorizeTake_standard (cats : CategorizedTakes) (t : Take) :
    (categorizeTake cats t).standardDialogue =
      cats.standardDialogue ++ (if inStandard t then [t] else []) := by
  simp only [categorizeTake, inStandard]
  split_ifs <;> simp_all
  all_goals linarith

theorem foldl_hesitation (ts : List Take) : ∀ cats : CategorizedTakes,
    (List.foldl categorizeTake cats ts).hesitationPauses =
      cats.hesitationPauses ++ ts.filter inHesitation := by
  induction ts with
  | nil => intro cats; simp
  | cons t ts ih =>
      intro cats
      rw [List.foldl_cons, ih, categorizeTake_hesitation, List.filter_cons]
      by_cases h : inHesitation t = true <;> simp [h]

theorem foldl_laughter (ts : List Take) : ∀ cats : CategorizedTakes,
    (List.foldl categorizeTake cats ts).laughterHumor =
      cats.laughterHumor ++ ts.filter inLaughter := by
  induction ts with
  | nil => intro cats; simp
  | cons t ts ih =>
      intro cats
      rw [List.foldl_cons, ih, categorizeTake_laughter, List.filter_cons]
      by_cases h : inLaughter t = true <;> simp [h]

theorem foldl_analytical (ts : List Take) : ∀ cats : CategorizedTakes,
    (List.foldl categorizeTake cats ts).analyticalTechnical =
      cats.analyticalTechnical ++ ts.filter inAnalytical := by
  induction ts with
  | nil => intro cats; simp
  | cons t ts ih =>
      intro cats
      rw [List.foldl_cons, ih, categorizeTake_analytical, List.filter_cons]
      by_cases h : inAnalytical t = true <;> simp [h]

theorem foldl_emotional (ts : List Take) : ∀ cats : CategorizedTakes,
    (List.foldl categorizeTake cats ts).emotionalPeaks =
      cats.emotionalPeaks ++ ts.filter inEmotional := by
  induction ts with
  | nil => intro cats; simp
  | cons t ts ih =>
      intro cats
      rw [List.foldl_cons, ih, categorizeTake_emotional, List.filter_cons]
      by_cases h : inEmotional t = true <;> simp [h]

theorem foldl_standard (ts : List Take) : ∀ cats : CategorizedTakes,
    (List.foldl categorizeTake cats ts).standardDialogue =
      cats.standardDialogue ++ ts.filter inStandard := by
  induction ts with
  | nil => intro cats; simp
  | cons t ts ih =>
      intro cats
      rw [List.foldl_cons, ih, categorizeTake_standard, List.filter_cons]
      by_cases h : inStandard t = true <;> simp [h]

/-- Claim C3: the categorizer places each take (with defaulted fields)
into exactly the categories whose predicates it satisfies, evaluated
independently, and each bucket is the order-preserving filter of the
input list by that predicate: Hesitation and Pauses by
`hesitation_duration > 1`, Laughter and Humor by `laughter_detected`,
Analytical and Technical by `emotion = analytical`, Emotional Peaks by
`emotion` not neutral, unknown or analytical, Standard Dialogue by no
laughter, `hesitation_duration ≤ 1` and `emotion` neutral or
unknown. -/
theorem C3_categorizer_buckets (ts : List Take) :
    (categorizedResults ts).hesitationPauses = ts.filter inHesitation ∧
    (categorizedResults ts).laughterHumor = ts.filter inLaughter ∧
    (categorizedResults ts).analyticalTechnical = ts.filter inAnalytical ∧
    (categorizedResults ts).emotionalPeaks = ts.filter inEmotional ∧
    (categorizedResults ts).standardDialogue = ts.filter inStandard := by
  unfold categorizedResults
  refine ⟨?_, ?_, ?_, ?_, ?_⟩
  · rw [foldl_hesitation]; rfl
  · rw [foldl_laughter]; rfl
  · rw [foldl_analytical]; rfl
  · rw [foldl_emotional]; rfl
  · rw [foldl_standard]; rfl

/-- The five category predicates cover every take. -/
theorem category_cover (t : Take) :
    inHesitation t = true ∨ inLaughter t = true ∨ inAnalytical t = true ∨
      inEmotional t = true ∨ inStandard t = true := by
  by_cases hp : pauseOf t > 1
  · exact Or.inl (by simp [inHesitation, hp])
  by_cases hl : laughterOf t = true
  · exact Or.inr (Or.inl hl)
  by_cases ha : emotionOf t = "analytical"
  · exact Or.inr (Or.inr (Or.inl (by simp [inAnalytical, ha])))
  simp only [Bool.not_eq_true] at hl
  by_cases hn : emotionOf t = "neutral"
  · refine Or.inr (Or.inr (Or.inr (Or.inr ?_)))
    simp [inStandard, hl, hn, not_lt.mp hp]
  by_cases hu : emotionOf t = "unknown"
  · refine Or.inr (Or.inr (Or.inr (Or.inr ?_)))
    simp [inStandard, hl, hu, not_lt.mp hp]
  exact Or.inr (Or.inr (Or.inr (Or.inl (by simp [inEmotional, ha, hn, hu]))))

/-- Claim C10: every take of the input list lands in at least one of
the five buckets; no take is left out of every category. -/
theorem C10_no_take_left_out (ts : List Take) (t : Take) (ht : t ∈ ts) :
    t ∈ (categorizedResults ts).hesitationPauses ∨
    t ∈ (categorizedResults ts).laughterHumor ∨
    t ∈ (categorizedResults ts).analyticalTechnical ∨
    t ∈ (categorizedResults ts).emotionalPeaks ∨
    t ∈ (categorizedResults ts).standardDialogue := by
  have hH : (categorizedResults ts).hesitationPauses = ts.filter inHesitation := by
    unfold categorizedResults; rw [foldl_hesitation]; rfl
  have hL : (categorizedResults ts).laughterHumor = ts.filter inLaughter := by
    unfold categorizedResults; rw [foldl_laughter]; rfl
  have hA : (categorizedResults ts).analyticalTechnical = ts.filter inAnalytical := by
    unfold categorizedResults; rw [foldl_analytical]; rfl
  have hE : (categorizedResults ts).emotionalPeaks = ts.filter inEmotional := by
    unfold categorizedResults; rw [foldl_emotional]; rfl
  have hS : (categorizedResults ts).standardDialogue = ts.filter inStandard := by
    unfold categorizedResults; rw [foldl_standard]; rfl
  rcases category_cover t with h | h | h | h | h
  · exact Or.inl (hH ▸ List.mem_filter.mpr ⟨ht, h⟩)
  · exact Or.inr (Or.inl (hL ▸ List.mem_filter.mpr ⟨ht, h⟩))
  · exact Or.inr (Or.inr (Or.inl (hA ▸ List.mem_filter.mpr ⟨ht, h⟩)))
  · exact Or.inr (Or.inr (Or.inr (Or.inl (hE ▸ List.mem_filter.mpr ⟨ht, h⟩))))
  · exact Or.inr (Or.inr (Or.inr (Or.inr (hS ▸ List.mem_filter.mpr ⟨ht, h⟩))))

/-- Witness for C10 at a concrete input. -/
theorem C10_no_take_left_out_witness :
    exTakeA ∈ (categorizedResults exTakes).hesitationPauses ∨
    exTakeA ∈ (categorizedResults exTakes).laughterHumor ∨
    exTakeA ∈ (categorizedResults exTakes).analyticalTechnical ∨
    exTakeA ∈ (categorizedResults exTakes).emotionalPeaks ∨
    exTakeA ∈ (categorizedResults exTakes).standardDialogue :=
  C10_no_take_left_out exTakes exTakeA (by decide)

/-! ## Helper lemmas: auto-select -/

/-- The first element satisfying a predicate is the head of the
filtered list. -/
theorem find?_eq_head?_filter {α : Type} (p : α → Bool) (l : List α) :
    l.find? p = (l.filter p).head? := by
  induction l with
  | nil => rfl
  | cons x xs ih =>
      by_cases h : p x = true
      · rw [List.find?_cons_of_pos _ h, List.filter_cons_of_pos h]
        rfl
      · rw [List.find?_cons_of_neg _ h, List.filter_cons_of_neg h, ih]

/-- Claim C4: on a non-empty refreshed take list, with no current
selection the new selection is the take matching the URL identifier
when supplied and found, else the first take in server order with
non-empty analysis metadata, else the first take (the last two cases
are phrased together as the head of the meta-filtered list prepended
to the full list); with a current selection, it is replaced by the
refreshed copy carrying the same id when present, and kept unchanged
when absent. -/
theorem C4_auto_select (data : List Take) (hne : data ≠ []) :
    (∀ uid t, data.find? (fun x => x.id == uid) = some t →
        autoSelect (some uid) none data = some t) ∧
    (∀ uid, data.find? (fun x => x.id == uid) = none →
        autoSelect (some uid) none data =
          (data.filter hasNonEmptyMeta ++ data).head?) ∧
    (autoSelect none none data =
      (data.filter hasNonEmptyMeta ++ data).head?) ∧
    (∀ url sel t, data.find? (fun x => x.id == sel.id) = some t →
        autoSelect url (some sel) data = some t) ∧
    (∀ url sel, data.find? (fun x => x.id == sel.id) = none →
        autoSelect url (some sel) data = some sel) := by
  have hlen : data.length > 0 := List.length_pos.mpr hne
  refine ⟨?_, ?_, ?_, ?_, ?_⟩
  · intro uid t h
    simp [autoSelect, hlen, h]
  · intro uid h
    rw [autoSelect, if_pos hlen]
    simp only [h]
    rw [find?_eq_head?_filter]
    rw [List.head?_append]
    cases (data.filter hasNonEmptyMeta).head? <;> simp [Option.or]
  · rw [autoSelect, if_pos hlen]
    simp only []
    rw [find?_eq_head?_filter, List.head?_append]
    cases (data.filter hasNonEmptyMeta).head? <;> simp [Option.or]
  · intro url sel t h
    simp [autoSelect, hlen, h]
  · intro url sel h
    simp [autoSelect, hlen, h]

/-- Witness for C4: with takes A (no metadata), B and C (with
metadata), no prior selection and no URL identifier, the selected take
is B. -/
theorem C4_auto_select_witness :
    autoSelect none none exTakes = some exTakeB := by
  rw [(C4_auto_select exTakes (by decide)).2.2.1]
  decide

/-! ## Helper lemmas: resolution of the store actions -/

/-- A `fetchDashboardStats` run in which some attempt within the retry
budget succeeds resolves with `loading` false and `error` null. -/
theorem fds_success (b : Nat → Option DashboardStats) (now : Nat) :
    ∀ (n i : Nat) (s : StoreState), (∃ j, j ≤ n ∧ (b (i + j)).isSome = true) →
      (fetchDashboardStats b now i n s).state.loading = false ∧
      (fetchDashboardStats b now i n s).state.error = none := by
  intro n
  induction n with
  | zero =>
      rintro i s ⟨j, hj, hsome⟩
      have hj0 : j = 0 := Nat.le_zero.mp hj
      subst hj0
      rw [Nat.add_zero] at hsome
      obtain ⟨stats, hb⟩ := Option.isSome_iff_exists.mp hsome
      simp [fetchDashboardStats, hb, syncStart]
  | succ n ih =>
      rintro i s ⟨j, hj, hsome⟩
      cases ho : b i with
      | some stats => simp [fetchDashboardStats, ho, syncStart]
      | none =>
          have hj0 : j ≠ 0 := by
            intro h0
            subst h0
            rw [Nat.add_zero, ho] at hsome
            simp at hsome
          obtain ⟨k, rfl⟩ := Nat.exists_eq_succ_of_ne_zero hj0
          have hrec := ih (i + 1) (syncStart s)
            ⟨k, by omega, by
              have hik : i + 1 + k = i + (k + 1) := by omega
              rw [hik]
              exact hsome⟩
          simpa [fetchDashboardStats, ho] using hrec

/-- `fetchDashboardStats` never re-raises: its promise always resolves
normally (every failure path is caught). -/
theorem fds_outcome_ok (b : Nat → Option DashboardStats) (now : Nat) :
    ∀ (n i : Nat) (s : StoreState),
      (fetchDashboardStats b now i n s).outcome = Except.ok () := by
  intro n
  induction n with
  | zero => intro i s; cases ho : b i <;> simp [fetchDashboardStats, ho]
  | succ n ih => intro i s; cases ho : b i <;> simp [fetchDashboardStats, ho, ih]

/-- Claim C5: every store fetch action run to completion ends with
`loading` false; `error` is null after a success and non-null after a
terminal failure; `getProcessingStatus` leaves the global `error` and
`loading` fields untouched in both cases. -/
theorem C5_resolution_flags :
    (∀ fmt p s, (fetchProject fmt (Except.ok p) s).state.loading = false ∧
        (fetchProject fmt (Except.ok p) s).state.error = none) ∧
    (∀ fmt e s, (fetchProject fmt (Except.error e) s).state.loading = false ∧
        ((fetchProject fmt (Except.error e) s).state.error).isSome = true) ∧
    (∀ tl s, (fetchTimeline (Except.ok tl) s).state.loading = false ∧
        (fetchTimeline (Except.ok tl) s).state.error = none) ∧
    (∀ e s, (fetchTimeline (Except.error e) s).state.loading = false ∧
        ((fetchTimeline (Except.error e) s).state.error).isSome = true) ∧
    (∀ f d s, (uploadMedia f (Except.ok d) s).state.loading = false ∧
        (uploadMedia f (Except.ok d) s).state.error = none) ∧
    (∀ f e s, (uploadMedia f (Except.error e) s).state.loading = false ∧
        ((uploadMedia f (Except.error e) s).state.error).isSome = true) ∧
    (∀ b now i n s, (∃ j, j ≤ n ∧ (b (i + j)).isSome = true) →
        (fetchDashboardStats b now i n s).state.loading = false ∧
        (fetchDashboardStats b now i n s).state.error = none) ∧
    (∀ now n s,
        (fetchDashboardStats (fun _ => none) now 0 n s).state.loading = false ∧
        ((fetchDashboardStats (fun _ => none) now 0 n s).state.error).isSome = true) ∧
    (∀ takeId res s, (getProcessingStatus takeId res s).state.error = s.error ∧
        (getProcessingStatus takeId res s).state.loading = s.loading) := by
  refine ⟨fun fmt p s => ⟨rfl, rfl⟩, fun fmt e s => ⟨rfl, rfl⟩,
    fun tl s => ⟨rfl, rfl⟩, fun e s => ⟨rfl, rfl⟩,
    fun f d s => ⟨rfl, rfl⟩, fun f e s => ⟨rfl, rfl⟩,
    fun b now i n s => fds_success b now n i s, ?_, ?_⟩
  · intro now n s
    rw [fds_fail_eq]
    exact ⟨rfl, rfl⟩
  · intro takeId res s
    cases res <;> exact ⟨rfl, rfl⟩

/-- Witness for C5, discharging the success hypothesis of the
dashboard-stats conjunct at a concrete backend. -/
theorem C5_resolution_flags_witness :
    (fetchDashboardStats (fun _ => some exStats) 7 0 3 initialState).state.loading
      = false ∧
    (fetchDashboardStats (fun _ => some exStats) 7 0 3 initialState).state.error
      = none :=
  C5_resolution_flags.2.2.2.2.2.2.1 (fun _ => some exStats) 7 0 3 initialState
    ⟨0, by omega, rfl⟩

/-- Claim C6: a failing `fetchProject` (and every other failing
action) leaves every store field other than `error` and `loading`
unchanged; `getProcessingStatus` leaves the whole state unchanged; a
successful `fetchProject` replaces the project fields wholesale from
the payload and touches nothing else. -/
theorem C6_failure_frame :
    (∀ fmt e s, domainUnchanged s (fetchProject fmt (Except.error e) s).state) ∧
    (∀ e s, domainUnchanged s (fetchTimeline (Except.error e) s).state) ∧
    (∀ f e s, domainUnchanged s (uploadMedia f (Except.error e) s).state) ∧
    (∀ takeId res s, (getProcessingStatus takeId res s).state = s) ∧
    (∀ now n s, domainUnchanged s
        (fetchDashboardStats (fun _ => none) now 0 n s).state) ∧
    (∀ fmt p s, (fetchProject fmt (Except.ok p) s).state =
        { s with projectId := some p.id, projectName := p.name,
                 description := jsOrString p.description ""
                 shootDate := fmt p.created_at
                 loading := false, error := none }) := by
  refine ⟨?_, ?_, ?_, ?_, ?_, ?_⟩
  · intro fmt e s
    exact ⟨rfl, rfl, rfl, rfl, rfl, rfl, rfl, rfl, rfl, rfl, rfl, rfl⟩
  · intro e s
    exact ⟨rfl, rfl, rfl, rfl, rfl, rfl, rfl, rfl, rfl, rfl, rfl, rfl⟩
  · intro f e s
    exact ⟨rfl, rfl, rfl, rfl, rfl, rfl, rfl, rfl, rfl, rfl, rfl, rfl⟩
  · intro takeId res s
    cases res <;> rfl
  · intro now n s
    rw [fds_fail_eq]
    exact ⟨rfl, rfl, rfl, rfl, rfl, rfl, rfl, rfl, rfl, rfl, rfl, rfl⟩
  · intro fmt p s
    rfl

/-- Claim C7: `uploadMedia` performs the loading-true error-null write
before its fetch attempt, returns the created resource data with
`loading` cleared on success, and on failure records the failure
message, clears `loading`, and re-raises the failure; it is the only
store action whose promise can reject. -/
theorem C7_upload_propagation :
    (∀ f d s, (uploadMedia f (Except.ok d) s).outcome = Except.ok d ∧
        (uploadMedia f (Except.ok d) s).state.loading = false) ∧
    (∀ f e s, (uploadMedia f (Except.error e) s).outcome = Except.error e ∧
        (uploadMedia f (Except.error e) s).state.error = some (jsErrorMessage e) ∧
        (uploadMedia f (Except.error e) s).state.loading = false) ∧
    (∀ f res s, (uploadMedia f res s).events =
        [Ev.write (syncStart s), Ev.attempt,
          Ev.write (uploadMedia f res s).state]) ∧
    (∀ fmt res s, exceptIsOk (fetchProject fmt res s).outcome = true) ∧
    (∀ res s, exceptIsOk (fetchTimeline res s).outcome = true) ∧
    (∀ takeId res s, exceptIsOk (getProcessingStatus takeId res s).outcome = true) ∧
    (∀ q s, exceptIsOk (setProcessingProgress q s).outcome = true) ∧
    (∀ b now i n s, exceptIsOk (fetchDashboardStats b now i n s).outcome = true) := by
  refine ⟨fun f d s => ⟨rfl, rfl⟩, fun f e s => ⟨rfl, rfl, rfl⟩, ?_, ?_, ?_, ?_,
    fun q s => rfl, ?_⟩
  · intro f res s
    cases res <;> rfl
  · intro fmt res s
    cases res <;> rfl
  · intro res s
    cases res <;> rfl
  · intro takeId res s
    cases res <;> rfl
  · intro b now i n s
    rw [fds_outcome_ok]
    rfl

/-- Claim C8: `getProcessingStatus` returns the status payload on
success and null on failure, and in neither case does it modify the
global `loading` or `error` fields. -/
theorem C8_status_swallow (takeId : Int) :
    (∀ d s, (getProcessingStatus takeId (Except.ok d) s).outcome =
        Except.ok (some d) ∧
      (getProcessingStatus takeId (Except.ok d) s).state = s) ∧
    (∀ e s, (getProcessingStatus takeId (Except.error e) s).outcome =
        Except.ok none ∧
      (getProcessingStatus takeId (Except.error e) s).state.loading = s.loading ∧
      (getProcessingStatus takeId (Except.error e) s).state.error = s.error) :=
  ⟨fun _ _ => ⟨rfl, rfl⟩, fun _ _ => ⟨rfl, rfl, rfl⟩⟩

/-! ## Claim C9: the sync-state invariant -/

/-- Trace invariants of a `fetchDashboardStats` run against an
arbitrary backend: every attempt starts with `error` cleared, the
final state has `loading` false, writes are never empty, and every
non-terminal write leaves `error` null. -/
theorem fds_trace_invariants (b : Nat → Option DashboardStats) (now : Nat) :
    ∀ (n i : Nat) (s : StoreState),
      errorsAtAttempts s.error (fetchDashboardStats b now i n s).events =
        List.replicate
          (attemptCount (fetchDashboardStats b now i n s).events) none ∧
      (fetchDashboardStats b now i n s).state.loading = false ∧
      writesOf (fetchDashboardStats b now i n s).events ≠ [] ∧
      (∀ w ∈ (writesOf (fetchDashboardStats b now i n s).events).dropLast,
        w.error = none) := by
  intro n
  induction n with
  | zero =>
      intro i s
      cases ho : b i <;>
        simp [fetchDashboardStats, ho, errorsAtAttempts, attemptCount,
          writesOf, syncStart]
  | succ n ih =>
      intro i s
      cases ho : b i with
      | some stats =>
          simp [fetchDashboardStats, ho, errorsAtAttempts, attemptCount,
            writesOf, syncStart]
      | none =>
          obtain ⟨ihErr, ihLoad, ihNe, ihDrop⟩ := ih (i + 1) (syncStart s)
          refine ⟨?_, ?_, ?_, ?_⟩
          · simp only [fetchDashboardStats, ho, errorsAtAttempts, attemptCount,
              syncStart]
            simpa [syncStart, List.replicate_succ] using ihErr
          · simpa [fetchDashboardStats, ho] using ihLoad
          · simp [fetchDashboardStats, ho, writesOf]
          · simp only [fetchDashboardStats, ho, writesOf]
            cases hw : writesOf (fetchDashboardStats b now (i + 1) n
                (syncStart s)).events with
            | nil => exact absurd hw ihNe
            | cons w ws =>
                rw [List.dropLast_cons_of_ne_nil (by simp)]
                intro x hx
                rcases List.mem_cons.mp hx with hx | hx
                · subst hx; rfl
                · exact ihDrop x (by rw [hw]; exact hx)

/-- Counterexample to claim C9 as stated: `getProcessingStatus` is a
store action that performs a fetch attempt, yet it does not clear the
`error` field at the start of that attempt; invoked on a store
carrying a stale error, the error value current at its attempt is the
stale message, not null. -/
theorem C9_counterexample :
    ¬ (errorsAtAttempts exErrState.error
        (getProcessingStatus 1 (Except.error (some "boom")) exErrState).events =
      List.replicate (attemptCount
        (getProcessingStatus 1 (Except.error (some "boom")) exErrState).events)
        none) := by
  decide

/-- Claim C9 as amended: for every loading-managed store action
(`fetchProject`, `fetchTimeline`, `uploadMedia`, `fetchDashboardStats`)
`loading` is false after the terminal resolution, `error` is cleared
at the start of every fetch attempt, and only the terminal write may
set `error`; `getProcessingStatus` performs its fetch without touching
the store at all, and `setProcessingProgress` touches neither
`loading` nor `error`. -/
theorem C9_amended_invariant :
    (∀ fmt res s, errorClearedAtAttempts s (fetchProject fmt res s).events ∧
        (fetchProject fmt res s).state.loading = false ∧
        errorOnlyAtEnd (fetchProject fmt res s).events) ∧
    (∀ res s, errorClearedAtAttempts s (fetchTimeline res s).events ∧
        (fetchTimeline res s).state.loading = false ∧
        errorOnlyAtEnd (fetchTimeline res s).events) ∧
    (∀ f res s, errorClearedAtAttempts s (uploadMedia f res s).events ∧
        (uploadMedia f res s).state.loading = false ∧
        errorOnlyAtEnd (uploadMedia f res s).events) ∧
    (∀ b now i n s,
        errorClearedAtAttempts s (fetchDashboardStats b now i n s).events ∧
        (fetchDashboardStats b now i n s).state.loading = false ∧
        errorOnlyAtEnd (fetchDashboardStats b now i n s).events) ∧
    (∀ takeId res s, (getProcessingStatus takeId res s).state = s) ∧
    (∀ q s, (setProcessingProgress q s).state.loading = s.loading ∧
        (setProcessingProgress q s).state.error = s.error) := by
  refine ⟨?_, ?_, ?_, ?_, ?_, fun q s => ⟨rfl, rfl⟩⟩
  · intro fmt res s
    cases res <;>
      simp [fetchProject, errorClearedAtAttempts, errorOnlyAtEnd,
        errorsAtAttempts, attemptCount, writesOf, syncStart]
  · intro res s
    cases res <;>
      simp [fetchTimeline, errorClearedAtAttempts, errorOnlyAtEnd,
        errorsAtAttempts, attemptCount, writesOf, syncStart]
  · intro f res s
    cases res <;>
      simp [uploadMedia, errorClearedAtAttempts, errorOnlyAtEnd,
        errorsAtAttempts, attemptCount, writesOf, syncStart]
  · intro b now i n s
    obtain ⟨h1, h2, _, h4⟩ := fds_trace_invariants b now n i s
    exact ⟨h1, h2, h4⟩
  · intro takeId res s
    cases res <;> rfl

/-- Witness for the amended C9, evaluating the non-terminal-write
clause of `fetchProject` at a concrete run. -/
theorem C9_amended_invariant_witness :
    (syncStart initialState).error = none :=
  (C9_amended_invariant.1 idFmt (Except.ok exProject) initialState).2.2
    (syncStart initialState) (by decide)

end CineAI
